import Mathlib

/-!
Shallow embedding of the cross-file validation engine of the Rasa Pro VS Code
extension: `CrossFileValidationService` (aggregation of project data, issue
detection, issue routing) together with the extraction helpers of
`YamlParserService` that it calls.

Modelling conventions:
* a JS `Set<string>` is an insertion-ordered duplicate-free `List String`
  (`setAdd` is `Set.add`, `jsSetOf` is `new Set([...])`);
* a JS `Map<string, string[]>` (and the issue map of `groupIssuesByFile`) is an
  association list `List (String × List α)` with the source's
  get-or-create-then-push helper `addToMap`;
* JS truthiness of a string value is `s ≠ ""`; an absent field is `none`;
* a per-file parse result is `Option doc`: `none` models a failed parse
  (`result.success` false or missing data), which the source logs and skips.
-/

set_option autoImplicit false

namespace RasaValidation

/-- Entry of the `intents:` / `entities:` list of a domain document: a plain
string, or a YAML object modelled by its ordered list of keys (the
"named object with properties" idiom).  Keys are non-null strings; an object
entry with a `null`-like key is outside the model. -/
inductive DomainEntry where
  | str (s : String)
  | obj (keys : List String)
  deriving DecidableEq, Repr

/-- `RasaDomain` as consumed by the extraction helpers: `slots`, `responses`
and `forms` are keyed objects of which only the ordered key list is ever read
(`Object.keys`), so they are modelled by that key list. -/
structure RasaDomain where
  intents : Option (List DomainEntry) := none
  entities : Option (List DomainEntry) := none
  slots : Option (List String) := none
  responses : Option (List String) := none
  actions : Option (List String) := none
  forms : Option (List String) := none
  deriving DecidableEq, Repr

/-- One entry of the `nlu:` list of an NLU document. -/
structure NLUItem where
  intent : Option String := none
  deriving DecidableEq, Repr

/-- `RasaNLU`: an NLU document. -/
structure RasaNLU where
  nlu : Option (List NLUItem) := none
  deriving DecidableEq, Repr

/-- Value of a step's `active_loop` field: explicit `null`, or a string. -/
inductive ActiveLoopVal where
  | null
  | name (s : String)
  deriving DecidableEq, Repr

/-- One element of a `slot_was_set` list: an object (modelled by its keys) or
a non-object scalar, which the source skips. -/
inductive SlotWasSetItem where
  | obj (keys : List String)
  | nonObj
  deriving DecidableEq, Repr

/-- Value of a step's `slot_was_set` field: a list, a single object, or any
other value (which contributes nothing). -/
inductive SlotWasSetVal where
  | arr (items : List SlotWasSetItem)
  | obj (keys : List String)
  | other
  deriving DecidableEq, Repr

/-- A story/rule step, restricted to the four fields the extractor reads. -/
structure Step where
  intent : Option String := none
  action : Option String := none
  active_loop : Option ActiveLoopVal := none
  slot_was_set : Option SlotWasSetVal := none
  deriving DecidableEq, Repr

/-- One story of a stories document. -/
structure Story where
  steps : Option (List Step) := none
  deriving DecidableEq, Repr

/-- `RasaStories`: a stories document. -/
structure RasaStories where
  stories : Option (List Story) := none
  deriving DecidableEq, Repr

/-- One rule of a rules document (same step grammar as a story). -/
structure RuleEntry where
  steps : Option (List Step) := none
  deriving DecidableEq, Repr

/-- `RasaRules`: a rules document. -/
structure RasaRules where
  rules : Option (List RuleEntry) := none
  deriving DecidableEq, Repr

/-- A domain file: its path and its parse result (`none` = parse failure). -/
structure DomainFile where
  path : String
  parse : Option RasaDomain
  deriving DecidableEq, Repr

/-- An NLU file: its path and its parse result (`none` = parse failure). -/
structure NLUFile where
  path : String
  parse : Option RasaNLU
  deriving DecidableEq, Repr

/-- A stories file: its path and its parse result (`none` = parse failure). -/
structure StoriesFile where
  path : String
  parse : Option RasaStories
  deriving DecidableEq, Repr

/-- A rules file: its path and its parse result (`none` = parse failure). -/
structure RulesFile where
  path : String
  parse : Option RasaRules
  deriving DecidableEq, Repr

/-- JS `Set.prototype.add`: insertion order, duplicates ignored. -/
def setAdd (s : List String) (x : String) : List String :=
  if x ∈ s then s else s ++ [x]

/-- `new Set([...a, ...b])`: deduplicate, keeping first occurrences. -/
def jsSetOf (l : List String) : List String :=
  l.foldl setAdd []

/-- `CrossFileValidationService.addToMap`, generic in the value type: the
source uses the same get-or-create-then-push idiom for `Map<string, string[]>`
in `addToMap` and for the issue map built in `groupIssuesByFile`. -/
def addToMap {α : Type} (m : List (String × List α)) (key : String) (value : α) :
    List (String × List α) :=
  if m.any (fun p => p.1 == key) then
    m.map (fun p => if p.1 = key then (p.1, p.2 ++ [value]) else p)
  else
    m ++ [(key, [value])]

/-- `map.get(key) || []`: the list stored at `key`, or `[]` when absent. -/
def lookupMap {α : Type} (m : List (String × List α)) (key : String) : List α :=
  match m.find? (fun p => p.1 == key) with
  | some p => p.2
  | none => []

/-- `YamlParserService.extractIntents`: a string entry names itself; an object
entry contributes `Object.keys(intent)[0] || ""`, i.e. its first key; the
final `.filter(Boolean)` drops empty strings. -/
def extractIntents (domain : RasaDomain) : List String :=
  match domain.intents with
  | none => []
  | some entries =>
    (entries.map fun e =>
      match e with
      | .str s => s
      | .obj keys => keys.headD "").filter (fun s => s ≠ "")

/-- `YamlParserService.extractEntities`: same encoding rules as intents. -/
def extractEntities (domain : RasaDomain) : List String :=
  match domain.entities with
  | none => []
  | some entries =>
    (entries.map fun e =>
      match e with
      | .str s => s
      | .obj keys => keys.headD "").filter (fun s => s ≠ "")

/-- `YamlParserService.extractSlots`: `Object.keys(domain.slots)`. -/
def extractSlots (domain : RasaDomain) : List String :=
  match domain.slots with
  | none => []
  | some keys => keys

/-- `YamlParserService.extractResponses`: `Object.keys(domain.responses)`. -/
def extractResponses (domain : RasaDomain) : List String :=
  match domain.responses with
  | none => []
  | some keys => keys

/-- `YamlParserService.extractActions`: `domain.actions || []`. -/
def extractActions (domain : RasaDomain) : List String :=
  domain.actions.getD []

/-- `YamlParserService.extractForms`: `Object.keys(domain.forms)`. -/
def extractForms (domain : RasaDomain) : List String :=
  match domain.forms with
  | none => []
  | some keys => keys

/-- The mutable `ProjectData` record of `CrossFileValidationService`. -/
structure ProjectData where
  intents : List String := []
  entities : List String := []
  slots : List String := []
  responses : List String := []
  actions : List String := []
  forms : List String := []
  nluIntents : List String := []
  storyIntents : List String := []
  storyActions : List String := []
  storySlots : List String := []
  storyForms : List String := []
  ruleIntents : List String := []
  ruleActions : List String := []
  ruleSlots : List String := []
  ruleForms : List String := []
  intentFiles : List (String × List String) := []
  actionFiles : List (String × List String) := []
  responseFiles : List (String × List String) := []
  slotFiles : List (String × List String) := []
  entityFiles : List (String × List String) := []
  deriving DecidableEq, Repr

/-- The freshly initialised `ProjectData` of `aggregateProjectData`. -/
def ProjectData.empty : ProjectData := {}

/-- The per-kind `forEach` loops of `parseDomainFiles`: add every extracted
name to the kind's set and record the declaring file in the kind's map. -/
def addDefs (names : List String) (path : String)
    (acc : List String × List (String × List String)) :
    List String × List (String × List String) :=
  names.foldl (fun acc n => (setAdd acc.1 n, addToMap acc.2 n path)) acc

/-- Loop body of `CrossFileValidationService.parseDomainFiles` for one file:
on parse failure the file contributes nothing; otherwise the six kinds are
extracted and upserted (forms record no declaring files in the source). -/
def processDomainFile (data : ProjectData) (f : DomainFile) : ProjectData :=
  match f.parse with
  | none => data
  | some domain =>
    let pi := addDefs (extractIntents domain) f.path (data.intents, data.intentFiles)
    let pe := addDefs (extractEntities domain) f.path (data.entities, data.entityFiles)
    let ps := addDefs (extractSlots domain) f.path (data.slots, data.slotFiles)
    let pr := addDefs (extractResponses domain) f.path (data.responses, data.responseFiles)
    let pa := addDefs (extractActions domain) f.path (data.actions, data.actionFiles)
    let fs := (extractForms domain).foldl setAdd data.forms
    { data with
      intents := pi.1, intentFiles := pi.2
      entities := pe.1, entityFiles := pe.2
      slots := ps.1, slotFiles := ps.2
      responses := pr.1, responseFiles := pr.2
      actions := pa.1, actionFiles := pa.2
      forms := fs }

/-- `CrossFileValidationService.parseDomainFiles`. -/
def parseDomainFiles (data : ProjectData) (files : List DomainFile) : ProjectData :=
  files.foldl processDomainFile data

/-- Loop body of `parseNLUFiles` for one file: every training item with a
truthy `intent` field adds that intent to `nluIntents`. -/
def processNLUFile (data : ProjectData) (f : NLUFile) : ProjectData :=
  match f.parse with
  | none => data
  | some doc =>
    match doc.nlu with
    | none => data
    | some items =>
      { data with
        nluIntents := items.foldl (fun s item =>
          match item.intent with
          | some i => if i ≠ "" then setAdd s i else s
          | none => s) data.nluIntents }

/-- `CrossFileValidationService.parseNLUFiles`. -/
def parseNLUFiles (data : ProjectData) (files : List NLUFile) : ProjectData :=
  files.foldl processNLUFile data

/-- Keys contributed by a `slot_was_set` value: for a list, the keys of each
object element; for a single object, its keys; nothing otherwise. -/
def slotWasSetKeys : SlotWasSetVal → List String
  | .arr items => items.flatMap fun it =>
      match it with
      | .obj keys => keys
      | .nonObj => []
  | .obj keys => keys
  | .other => []

/-- `if (step.intent) { intentsSet.add(step.intent) }`: a truthy `intent`
field (a non-empty string) is added to the intent set of the document kind. -/
def stepRefIntent (isStory : Bool) (data : ProjectData) (step : Step) : ProjectData :=
  match step.intent with
  | some s =>
    if s ≠ "" then
      if isStory then { data with storyIntents := setAdd data.storyIntents s }
      else { data with ruleIntents := setAdd data.ruleIntents s }
    else data
  | none => data

/-- `if (step.action) { actionsSet.add(step.action) }`. -/
def stepRefAction (isStory : Bool) (data : ProjectData) (step : Step) : ProjectData :=
  match step.action with
  | some s =>
    if s ≠ "" then
      if isStory then { data with storyActions := setAdd data.storyActions s }
      else { data with ruleActions := setAdd data.ruleActions s }
    else data
  | none => data

/-- `if (step.active_loop && step.active_loop !== null) { formsSet.add(...) }`:
only a truthy value (a non-empty string; explicit `null` is falsy) is added
to the form set of the document kind. -/
def stepRefLoop (isStory : Bool) (data : ProjectData) (step : Step) : ProjectData :=
  match step.active_loop with
  | some (.name s) =>
    if s ≠ "" then
      if isStory then { data with storyForms := setAdd data.storyForms s }
      else { data with ruleForms := setAdd data.ruleForms s }
    else data
  | _ => data

/-- `if (step.slot_was_set) { ... }`: the keys contributed by `slot_was_set`
are added to the slot set of the document kind. -/
def stepRefSlots (isStory : Bool) (data : ProjectData) (step : Step) : ProjectData :=
  match step.slot_was_set with
  | some v =>
    if isStory then { data with storySlots := (slotWasSetKeys v).foldl setAdd data.storySlots }
    else { data with ruleSlots := (slotWasSetKeys v).foldl setAdd data.ruleSlots }
  | none => data

/-- Loop body of `CrossFileValidationService.extractStepReferences` for one
step: the four field extractions, in source order. -/
def stepRef (isStory : Bool) (data : ProjectData) (step : Step) : ProjectData :=
  stepRefSlots isStory (stepRefLoop isStory (stepRefAction isStory
    (stepRefIntent isStory data step) step) step) step

/-- `CrossFileValidationService.extractStepReferences`. -/
def extractStepReferences (steps : List Step) (data : ProjectData) (isStory : Bool) :
    ProjectData :=
  steps.foldl (stepRef isStory) data

/-- Loop body of `parseStoriesFiles` for one file. -/
def processStoriesFile (data : ProjectData) (f : StoriesFile) : ProjectData :=
  match f.parse with
  | none => data
  | some doc =>
    match doc.stories with
    | none => data
    | some stories =>
      stories.foldl (fun d st =>
        match st.steps with
        | some steps => extractStepReferences steps d true
        | none => d) data

/-- `CrossFileValidationService.parseStoriesFiles`. -/
def parseStoriesFiles (data : ProjectData) (files : List StoriesFile) : ProjectData :=
  files.foldl processStoriesFile data

/-- Loop body of `parseRulesFiles` for one file. -/
def processRulesFile (data : ProjectData) (f : RulesFile) : ProjectData :=
  match f.parse with
  | none => data
  | some doc =>
    match doc.rules with
    | none => data
    | some rules =>
      rules.foldl (fun d r =>
        match r.steps with
        | some steps => extractStepReferences steps d false
        | none => d) data

/-- `CrossFileValidationService.parseRulesFiles`. -/
def parseRulesFiles (data : ProjectData) (files : List RulesFile) : ProjectData :=
  files.foldl processRulesFile data

/-- The `type` field of `CrossFileIssue`. -/
inductive IssueType where
  | undefinedIntent
  | undefinedEntity
  | undefinedAction
  | undefinedSlot
  | undefinedResponse
  | unusedIntent
  | unusedEntity
  | unusedSlot
  | unusedResponse
  deriving DecidableEq, Repr

/-- `vscode.DiagnosticSeverity` as used by the service. -/
inductive Severity where
  | error
  | warning
  | information
  deriving DecidableEq, Repr

/-- `CrossFileIssue` (the `referencedIn` field is never assigned by the
source; it is kept for shape fidelity). -/
structure CrossFileIssue where
  type : IssueType
  message : String
  severity : Severity
  itemName : String
  referencedIn : Option (List String) := none
  definedIn : Option (List String) := none
  deriving DecidableEq, Repr

/-- The fixed allowlist of `CrossFileValidationService.isBuiltInAction`. -/
def builtInActions : List String :=
  ["action_listen", "action_restart", "action_session_start",
   "action_default_fallback", "action_deactivate_loop",
   "action_revert_fallback_events", "action_default_ask_affirmation",
   "action_default_ask_rephrase", "action_back", "action_unlikely_intent"]

/-- `CrossFileValidationService.isBuiltInAction`. -/
def isBuiltInAction (action : String) : Bool :=
  builtInActions.contains action

/-- `action.startsWith("utter_")`, written over character lists (same
semantics as `String.startsWith`, but it reduces inside the kernel). -/
def utterPrefixed (action : String) : Bool :=
  "utter_".toList.isPrefixOf action.toList

/-- `CrossFileValidationService.checkUndefinedIntents`: iterates the union of
story and rule intent references and reports every one absent from the
domain's intents. -/
def checkUndefinedIntents (data : ProjectData) : List CrossFileIssue :=
  (jsSetOf (data.storyIntents ++ data.ruleIntents)).filterMap fun intent =>
    if intent ∈ data.intents then none
    else some
      { type := .undefinedIntent
        message := "Intent \x27" ++ intent ++
          "\x27 is referenced in stories/rules but not defined in domain"
        severity := .error
        itemName := intent }

/-- `CrossFileValidationService.checkUndefinedActions`: built-in actions are
skipped; names with the `utter_` prefix are checked against responses only;
other names are checked against actions and forms. -/
def checkUndefinedActions (data : ProjectData) : List CrossFileIssue :=
  (jsSetOf (data.storyActions ++ data.ruleActions)).filterMap fun action =>
    if isBuiltInAction action then none
    else if utterPrefixed action then
      if action ∈ data.responses then none
      else some
        { type := .undefinedResponse
          message := "Response action \x27" ++ action ++
            "\x27 is referenced in stories/rules but not defined in domain responses"
          severity := .error
          itemName := action }
    else if action ∈ data.actions ∨ action ∈ data.forms then none
    else some
      { type := .undefinedAction
        message := "Action \x27" ++ action ++
          "\x27 is referenced in stories/rules but not defined in domain actions or forms"
        severity := .error
        itemName := action }

/-- `CrossFileValidationService.checkUndefinedSlots`. -/
def checkUndefinedSlots (data : ProjectData) : List CrossFileIssue :=
  (jsSetOf (data.storySlots ++ data.ruleSlots)).filterMap fun slot =>
    if slot ∈ data.slots then none
    else some
      { type := .undefinedSlot
        message := "Slot \x27" ++ slot ++
          "\x27 is referenced in stories/rules but not defined in domain"
        severity := .error
        itemName := slot }

/-- `CrossFileValidationService.checkUndefinedForms` (the source labels these
issues with the `undefined-action` type). -/
def checkUndefinedForms (data : ProjectData) : List CrossFileIssue :=
  (jsSetOf (data.storyForms ++ data.ruleForms)).filterMap fun form =>
    if form ∈ data.forms then none
    else some
      { type := .undefinedAction
        message := "Form \x27" ++ form ++
          "\x27 is referenced in stories/rules (active_loop) but not defined in domain"
        severity := .error
        itemName := form }

/-- `CrossFileValidationService.checkUnusedIntents`: an if/else-if chain, so
each domain intent yields at most one warning. -/
def checkUnusedIntents (data : ProjectData) : List CrossFileIssue :=
  data.intents.filterMap fun intent =>
    if intent ∉ data.nluIntents ∧
        ¬(intent ∈ data.storyIntents ∨ intent ∈ data.ruleIntents) then
      some
        { type := .unusedIntent
          message := "Intent \x27" ++ intent ++
            "\x27 is defined in domain but not used in NLU data or stories/rules"
          severity := .warning
          itemName := intent
          definedIn := some (lookupMap data.intentFiles intent) }
    else if intent ∉ data.nluIntents then
      some
        { type := .unusedIntent
          message := "Intent \x27" ++ intent ++
            "\x27 is defined in domain but has no training examples in NLU data"
          severity := .warning
          itemName := intent
          definedIn := some (lookupMap data.intentFiles intent) }
    else none

/-- `CrossFileValidationService.checkUnusedResponses`. -/
def checkUnusedResponses (data : ProjectData) : List CrossFileIssue :=
  data.responses.filterMap fun response =>
    if response ∈ jsSetOf (data.storyActions ++ data.ruleActions) then none
    else some
      { type := .unusedResponse
        message := "Response \x27" ++ response ++
          "\x27 is defined in domain but never used in stories/rules"
        severity := .information
        itemName := response
        definedIn := some (lookupMap data.responseFiles response) }

/-- `CrossFileValidationService.checkUnusedEntities`: a placeholder returning
no issues. -/
def checkUnusedEntities (_data : ProjectData) : List CrossFileIssue :=
  []

/-- `CrossFileValidationService.isSlotUsedInForms`: stubbed to `false` in the
source. -/
def isSlotUsedInForms (_slot : String) (_data : ProjectData) : Bool :=
  false

/-- `CrossFileValidationService.checkUnusedSlots`. -/
def checkUnusedSlots (data : ProjectData) : List CrossFileIssue :=
  data.slots.filterMap fun slot =>
    if slot ∉ jsSetOf (data.storySlots ++ data.ruleSlots) ∧
        isSlotUsedInForms slot data = false then
      some
        { type := .unusedSlot
          message := "Slot \x27" ++ slot ++
            "\x27 is defined in domain but never referenced in stories/rules or forms"
          severity := .information
          itemName := slot
          definedIn := some (lookupMap data.slotFiles slot) }
    else none

/-- `CrossFileValidationService.detectIssues`: the eight checks, in source
order. -/
def detectIssues (data : ProjectData) : List CrossFileIssue :=
  checkUndefinedIntents data ++ checkUndefinedActions data ++
  checkUndefinedSlots data ++ checkUndefinedForms data ++
  checkUnusedIntents data ++ checkUnusedResponses data ++
  checkUnusedEntities data ++ checkUnusedSlots data

/-- The four issue types routed to flow files by `groupIssuesByFile`. -/
def isRoutedUndefinedType : IssueType → Bool
  | .undefinedIntent | .undefinedAction | .undefinedSlot | .undefinedResponse => true
  | _ => false

/-- The four issue types routed to declaring files by `groupIssuesByFile`. -/
def isRoutedUnusedType : IssueType → Bool
  | .unusedIntent | .unusedResponse | .unusedEntity | .unusedSlot => true
  | _ => false

/-- Loop body of `groupIssuesByFile` for one issue: an undefined-type issue
is pushed into the map entry of every stories and rules file; an unused-type
issue is pushed into the entries of its `definedIn` files when that list is
present and non-empty. -/
def groupStep (storiesFiles rulesFiles : List String)
    (m : List (String × List CrossFileIssue)) (issue : CrossFileIssue) :
    List (String × List CrossFileIssue) :=
  if isRoutedUndefinedType issue.type then
    (storiesFiles ++ rulesFiles).foldl (fun m path => addToMap m path issue) m
  else if isRoutedUnusedType issue.type then
    match issue.definedIn with
    | some files =>
      if files ≠ [] then files.foldl (fun m path => addToMap m path issue) m else m
    | none => m
  else m

/-- `CrossFileValidationService.groupIssuesByFile`. -/
def groupIssuesByFile (issues : List CrossFileIssue)
    (storiesFiles rulesFiles : List String) :
    List (String × List CrossFileIssue) :=
  issues.foldl (groupStep storiesFiles rulesFiles) []

/-- The typed file buckets delivered by `RasaProjectService`. -/
structure ProjectFiles where
  domainFiles : List DomainFile := []
  nluFiles : List NLUFile := []
  storiesFiles : List StoriesFile := []
  rulesFiles : List RulesFile := []
  deriving DecidableEq, Repr

/-- `CrossFileValidationService.aggregateProjectData`: domain, NLU, stories
and rules files, in that order, folded into a fresh `ProjectData`. -/
def aggregateProjectData (pf : ProjectFiles) : ProjectData :=
  parseRulesFiles
    (parseStoriesFiles
      (parseNLUFiles
        (parseDomainFiles ProjectData.empty pf.domainFiles)
        pf.nluFiles)
      pf.storiesFiles)
    pf.rulesFiles

/-- `CrossFileValidationService.validateProject`: when the workspace is not a
Rasa project the empty map is returned at once; otherwise aggregate, detect
and route. -/
def validateProject (isRasaProject : Bool) (pf : ProjectFiles) :
    List (String × List CrossFileIssue) :=
  if isRasaProject then
    groupIssuesByFile (detectIssues (aggregateProjectData pf))
      (pf.storiesFiles.map (fun f => f.path))
      (pf.rulesFiles.map (fun f => f.path))
  else []

/-! ### Concrete example inputs used by witnesses and counterexamples -/

/-- A project whose only content is one NLU file using intent `greet_nlu`. -/
def exNLUOnly : ProjectFiles :=
  { nluFiles := [⟨"nlu.yml", some { nlu := some [{ intent := some "greet_nlu" }] }⟩] }

/-- Aggregated data with one domain intent `greet` and no usage at all. -/
def exUnusedData : ProjectData :=
  { intents := ["greet"], intentFiles := [("greet", ["domain.yml"])] }

/-- One domain file declaring intent `greet`. -/
def exDupFile : DomainFile :=
  ⟨"domain.yml", some { intents := some [.str "greet"] }⟩

/-- Aggregated data whose stories use only a built-in action. -/
def exBuiltinData : ProjectData :=
  { storyActions := ["action_listen"] }

/-- Aggregated data using response action `utter_hi`, declared only under
`actions:` (never under `responses:`). -/
def exUtterData : ProjectData :=
  { storyActions := ["utter_hi"], actions := ["utter_hi"] }

/-- Aggregated data whose stories use the undeclared intent `book_flight`. -/
def exFlowData : ProjectData :=
  { storyIntents := ["book_flight"] }

/-- Aggregated data whose stories use the undeclared intent `x`. -/
def exRouteData : ProjectData :=
  { storyIntents := ["x"] }

/-- The undefined-intent issue the evaluator produces for `exRouteData`. -/
def exIssueX : CrossFileIssue :=
  { type := .undefinedIntent
    message := "Intent \x27x\x27 is referenced in stories/rules but not defined in domain"
    severity := .error
    itemName := "x" }

/-! ### Lemmas about the set and map primitives -/

theorem setAdd_eq_of_mem {s : List String} {x : String} (h : x ∈ s) :
    setAdd s x = s := by
  simp [setAdd, h]

theorem mem_setAdd {s : List String} {x y : String} :
    y ∈ setAdd s x ↔ y ∈ s ∨ y = x := by
  by_cases h : x ∈ s
  · simp only [setAdd, if_pos h]
    exact ⟨Or.inl, fun hy => hy.elim id (fun hyx => hyx ▸ h)⟩
  · simp [setAdd, if_neg h]

theorem foldl_setAdd_mem (l : List String) (s : List String) (y : String) :
    y ∈ l.foldl setAdd s ↔ y ∈ s ∨ y ∈ l := by
  induction l generalizing s with
  | nil => simp
  | cons a l ih => simp [List.foldl_cons, ih, mem_setAdd, or_assoc]

theorem mem_jsSetOf {l : List String} {y : String} :
    y ∈ jsSetOf l ↔ y ∈ l := by
  simp [jsSetOf, foldl_setAdd_mem]

theorem foldl_setAdd_of_subset {l s : List String} (h : ∀ x ∈ l, x ∈ s) :
    l.foldl setAdd s = s := by
  induction l with
  | nil => rfl
  | cons a l ih =>
    rw [List.foldl_cons, setAdd_eq_of_mem (h a (by simp))]
    exact ih (fun x hx => h x (by simp [hx]))

theorem lookupMap_eq {α : Type} (m : List (String × List α)) (k : String) :
    lookupMap m k = (Option.map Prod.snd (m.find? (fun p => p.1 == k))).getD [] := by
  unfold lookupMap
  cases m.find? (fun p => p.1 == k) <;> rfl

theorem lookupMap_cons {α : Type} (k' : String) (v : List α)
    (m : List (String × List α)) (k : String) :
    lookupMap ((k', v) :: m) k = if k' = k then v else lookupMap m k := by
  by_cases h : k' = k
  · simp [lookupMap, List.find?_cons_of_pos, h]
  · rw [lookupMap_eq, List.find?_cons_of_neg, ← lookupMap_eq, if_neg h]
    simpa using h

theorem lookupMap_map_modify_ne {α : Type} (m : List (String × List α))
    (k : String) (v : α) (k2 : String) (h : k2 ≠ k) :
    lookupMap (m.map fun p => if p.1 = k then (p.1, p.2 ++ [v]) else p) k2 =
      lookupMap m k2 := by
  induction m with
  | nil => rfl
  | cons p m ih =>
    rcases p with ⟨pk, pv⟩
    by_cases hk : pk = k
    · subst hk
      simp only [List.map_cons, if_pos rfl]
      rw [lookupMap_cons, lookupMap_cons, if_neg (fun hkk => h hkk.symm),
        if_neg (fun hkk => h hkk.symm), ih]
    · simp only [List.map_cons, if_neg hk]
      rw [lookupMap_cons, lookupMap_cons, ih]

theorem lookupMap_map_modify_eq {α : Type} (m : List (String × List α))
    (k : String) (v : α) (h : m.any (fun p => p.1 == k) = true) :
    lookupMap (m.map fun p => if p.1 = k then (p.1, p.2 ++ [v]) else p) k =
      lookupMap m k ++ [v] := by
  induction m with
  | nil => simp at h
  | cons p m ih =>
    rcases p with ⟨pk, pv⟩
    by_cases hk : pk = k
    · subst hk
      have hhead : ((pk, pv) :: m).map (fun p => if p.1 = pk then (p.1, p.2 ++ [v]) else p) =
          (pk, pv ++ [v]) :: m.map (fun p => if p.1 = pk then (p.1, p.2 ++ [v]) else p) := by
        simp
      rw [hhead, lookupMap_cons, lookupMap_cons, if_pos rfl, if_pos rfl]
    · have hhead : ((pk, pv) :: m).map (fun p => if p.1 = k then (p.1, p.2 ++ [v]) else p) =
          (pk, pv) :: m.map (fun p => if p.1 = k then (p.1, p.2 ++ [v]) else p) := by
        simp [hk]
      rw [hhead, lookupMap_cons, lookupMap_cons, if_neg hk, if_neg hk]
      apply ih
      have : ¬(pk == k) = true := by simpa using hk
      simpa [this] using h

theorem lookupMap_append_single_ne {α : Type} (m : List (String × List α))
    (k : String) (v : List α) (k2 : String) (h : k2 ≠ k) :
    lookupMap (m ++ [(k, v)]) k2 = lookupMap m k2 := by
  induction m with
  | nil =>
    rw [List.nil_append, lookupMap_cons, if_neg (fun hkk => h hkk.symm)]
  | cons p m ih =>
    rcases p with ⟨pk, pv⟩
    rw [List.cons_append, lookupMap_cons, lookupMap_cons, ih]

theorem lookupMap_append_single_eq {α : Type} (m : List (String × List α))
    (k : String) (v : List α) (h : ∀ p ∈ m, p.1 ≠ k) :
    lookupMap (m ++ [(k, v)]) k = v := by
  induction m with
  | nil => rw [List.nil_append, lookupMap_cons, if_pos rfl]
  | cons p m ih =>
    rcases p with ⟨pk, pv⟩
    rw [List.cons_append, lookupMap_cons, if_neg (h (pk, pv) (by simp))]
    exact ih (fun q hq => h q (by simp [hq]))

theorem lookupMap_eq_nil_of_not_any {α : Type} (m : List (String × List α))
    (k : String) (h : m.any (fun p => p.1 == k) = false) :
    lookupMap m k = [] := by
  induction m with
  | nil => rfl
  | cons p m ih =>
    rcases p with ⟨pk, pv⟩
    simp only [List.any_cons, Bool.or_eq_false_iff] at h
    rw [lookupMap_cons, if_neg (by simpa using h.1)]
    exact ih h.2

theorem lookupMap_addToMap {α : Type} (m : List (String × List α))
    (k : String) (v : α) (k2 : String) :
    lookupMap (addToMap m k v) k2 =
      if k2 = k then lookupMap m k ++ [v] else lookupMap m k2 := by
  unfold addToMap
  by_cases hany : m.any (fun p => p.1 == k) = true
  · rw [if_pos hany]
    by_cases hk : k2 = k
    · subst hk
      rw [if_pos rfl, lookupMap_map_modify_eq m k2 v hany]
    · rw [if_neg hk, lookupMap_map_modify_ne m k v k2 hk]
  · rw [if_neg hany]
    have hall : ∀ p ∈ m, p.1 ≠ k := by
      intro p hp hk'
      exact hany (List.any_eq_true.mpr ⟨p, hp, by simp [hk']⟩)
    by_cases hk : k2 = k
    · subst hk
      rw [if_pos rfl, lookupMap_eq_nil_of_not_any m k2
        (by rw [Bool.eq_false_iff]; exact hany),
        lookupMap_append_single_eq m k2 [v] hall, List.nil_append]
    · rw [if_neg hk, lookupMap_append_single_ne m k [v] k2 hk]

theorem lookupMap_foldl_addToMap {α : Type} (ps : List String) (v : α)
    (m : List (String × List α)) (k : String) :
    lookupMap (ps.foldl (fun m p => addToMap m p v) m) k =
      lookupMap m k ++ List.replicate (ps.count k) v := by
  induction ps generalizing m with
  | nil => simp
  | cons p ps ih =>
    rw [List.foldl_cons, ih, lookupMap_addToMap]
    by_cases h : k = p
    · subst h
      rw [if_pos rfl, List.count_cons, if_pos (by simp), List.append_assoc,
        List.singleton_append, ← List.replicate_succ]
    · rw [if_neg h, List.count_cons, if_neg (by simpa using fun hh => h hh.symm),
        Nat.add_zero]

theorem mem_lookupMap_foldl_addToMap {α : Type} (ps : List String) (v : α)
    (m : List (String × List α)) (k : String) (x : α) :
    x ∈ lookupMap (ps.foldl (fun m p => addToMap m p v) m) k ↔
      x ∈ lookupMap m k ∨ (x = v ∧ k ∈ ps) := by
  rw [lookupMap_foldl_addToMap]
  simp only [List.mem_append, List.mem_replicate]
  constructor
  · rintro (h | ⟨hc, rfl⟩)
    · exact Or.inl h
    · exact Or.inr ⟨rfl, List.count_pos_iff.mp (Nat.pos_of_ne_zero hc)⟩
  · rintro (h | ⟨rfl, hk⟩)
    · exact Or.inl h
    · exact Or.inr ⟨Nat.pos_iff_ne_zero.mp (List.count_pos_iff.mpr hk), rfl⟩

/-! ### Characterisations of the detection rules -/

theorem mem_checkUndefinedIntents {data : ProjectData} {i : CrossFileIssue} :
    i ∈ checkUndefinedIntents data ↔
      ∃ name, (name ∈ data.storyIntents ∨ name ∈ data.ruleIntents) ∧
        name ∉ data.intents ∧
        i = { type := .undefinedIntent
              message := "Intent \x27" ++ name ++
                "\x27 is referenced in stories/rules but not defined in domain"
              severity := .error
              itemName := name } := by
  unfold checkUndefinedIntents
  rw [List.mem_filterMap]
  constructor
  · rintro ⟨a, ha, hfa⟩
    rw [mem_jsSetOf, List.mem_append] at ha
    by_cases h : a ∈ data.intents
    · rw [if_pos h] at hfa
      simp at hfa
    · rw [if_neg h] at hfa
      exact ⟨a, ha, h, (Option.some.inj hfa).symm⟩
  · rintro ⟨name, hn, hni, rfl⟩
    refine ⟨name, ?_, ?_⟩
    · rw [mem_jsSetOf, List.mem_append]
      exact hn
    · rw [if_neg hni]

theorem mem_checkUndefinedActions {data : ProjectData} {i : CrossFileIssue} :
    i ∈ checkUndefinedActions data ↔
      ∃ a, (a ∈ data.storyActions ∨ a ∈ data.ruleActions) ∧
        isBuiltInAction a = false ∧
        ((utterPrefixed a = true ∧ a ∉ data.responses ∧
          i = { type := .undefinedResponse
                message := "Response action \x27" ++ a ++
                  "\x27 is referenced in stories/rules but not defined in domain responses"
                severity := .error
                itemName := a }) ∨
         (utterPrefixed a = false ∧ a ∉ data.actions ∧ a ∉ data.forms ∧
          i = { type := .undefinedAction
                message := "Action \x27" ++ a ++
                  "\x27 is referenced in stories/rules but not defined in domain actions or forms"
                severity := .error
                itemName := a })) := by
  unfold checkUndefinedActions
  rw [List.mem_filterMap]
  constructor
  · rintro ⟨a, ha, hfa⟩
    rw [mem_jsSetOf, List.mem_append] at ha
    by_cases hb : isBuiltInAction a = true
    · rw [if_pos hb] at hfa
      simp at hfa
    · rw [if_neg hb] at hfa
      by_cases hu : utterPrefixed a = true
      · rw [if_pos hu] at hfa
        by_cases hr : a ∈ data.responses
        · rw [if_pos hr] at hfa
          simp at hfa
        · rw [if_neg hr] at hfa
          exact ⟨a, ha, by simpa using hb,
            Or.inl ⟨hu, hr, (Option.some.inj hfa).symm⟩⟩
      · rw [if_neg hu] at hfa
        by_cases hd : a ∈ data.actions ∨ a ∈ data.forms
        · rw [if_pos hd] at hfa
          simp at hfa
        · rw [if_neg hd] at hfa
          exact ⟨a, ha, by simpa using hb,
            Or.inr ⟨by simpa using hu, (not_or.mp hd).1, (not_or.mp hd).2,
              (Option.some.inj hfa).symm⟩⟩
  · rintro ⟨a, ha, hb, hcase⟩
    refine ⟨a, by rw [mem_jsSetOf, List.mem_append]; exact ha, ?_⟩
    rw [if_neg (by simp [hb])]
    rcases hcase with ⟨hu, hr, rfl⟩ | ⟨hu, hact, hform, rfl⟩
    · rw [if_pos hu, if_neg hr]
    · rw [if_neg (by simp [hu]), if_neg (not_or.mpr ⟨hact, hform⟩)]

theorem mem_checkUndefinedSlots {data : ProjectData} {i : CrossFileIssue} :
    i ∈ checkUndefinedSlots data ↔
      ∃ name, (name ∈ data.storySlots ∨ name ∈ data.ruleSlots) ∧
        name ∉ data.slots ∧
        i = { type := .undefinedSlot
              message := "Slot \x27" ++ name ++
                "\x27 is referenced in stories/rules but not defined in domain"
              severity := .error
              itemName := name } := by
  unfold checkUndefinedSlots
  rw [List.mem_filterMap]
  constructor
  · rintro ⟨a, ha, hfa⟩
    rw [mem_jsSetOf, List.mem_append] at ha
    by_cases h : a ∈ data.slots
    · rw [if_pos h] at hfa
      simp at hfa
    · rw [if_neg h] at hfa
      exact ⟨a, ha, h, (Option.some.inj hfa).symm⟩
  · rintro ⟨name, hn, hni, rfl⟩
    refine ⟨name, ?_, ?_⟩
    · rw [mem_jsSetOf, List.mem_append]
      exact hn
    · rw [if_neg hni]

theorem mem_checkUndefinedForms {data : ProjectData} {i : CrossFileIssue} :
    i ∈ checkUndefinedForms data ↔
      ∃ name, (name ∈ data.storyForms ∨ name ∈ data.ruleForms) ∧
        name ∉ data.forms ∧
        i = { type := .undefinedAction
              message := "Form \x27" ++ name ++
                "\x27 is referenced in stories/rules (active_loop) but not defined in domain"
              severity := .error
              itemName := name } := by
  unfold checkUndefinedForms
  rw [List.mem_filterMap]
  constructor
  · rintro ⟨a, ha, hfa⟩
    rw [mem_jsSetOf, List.mem_append] at ha
    by_cases h : a ∈ data.forms
    · rw [if_pos h] at hfa
      simp at hfa
    · rw [if_neg h] at hfa
      exact ⟨a, ha, h, (Option.some.inj hfa).symm⟩
  · rintro ⟨name, hn, hni, rfl⟩
    refine ⟨name, ?_, ?_⟩
    · rw [mem_jsSetOf, List.mem_append]
      exact hn
    · rw [if_neg hni]

theorem mem_checkUnusedIntents {data : ProjectData} {i : CrossFileIssue} :
    i ∈ checkUnusedIntents data ↔
      ∃ name, name ∈ data.intents ∧ name ∉ data.nluIntents ∧
        ((name ∉ data.storyIntents ∧ name ∉ data.ruleIntents ∧
          i = { type := .unusedIntent
                message := "Intent \x27" ++ name ++
                  "\x27 is defined in domain but not used in NLU data or stories/rules"
                severity := .warning
                itemName := name
                definedIn := some (lookupMap data.intentFiles name) }) ∨
         ((name ∈ data.storyIntents ∨ name ∈ data.ruleIntents) ∧
          i = { type := .unusedIntent
                message := "Intent \x27" ++ name ++
                  "\x27 is defined in domain but has no training examples in NLU data"
                severity := .warning
                itemName := name
                definedIn := some (lookupMap data.intentFiles name) })) := by
  unfold checkUnusedIntents
  rw [List.mem_filterMap]
  constructor
  · rintro ⟨a, ha, hfa⟩
    by_cases h1 : a ∉ data.nluIntents ∧ ¬(a ∈ data.storyIntents ∨ a ∈ data.ruleIntents)
    · rw [if_pos h1] at hfa
      exact ⟨a, ha, h1.1,
        Or.inl ⟨(not_or.mp h1.2).1, (not_or.mp h1.2).2, (Option.some.inj hfa).symm⟩⟩
    · rw [if_neg h1] at hfa
      by_cases h2 : a ∉ data.nluIntents
      · rw [if_pos h2] at hfa
        have hused : a ∈ data.storyIntents ∨ a ∈ data.ruleIntents := by
          by_contra hno
          exact h1 ⟨h2, hno⟩
        exact ⟨a, ha, h2, Or.inr ⟨hused, (Option.some.inj hfa).symm⟩⟩
      · rw [if_neg h2] at hfa
        simp at hfa
  · rintro ⟨name, hn, hnlu, hcase⟩
    rcases hcase with ⟨hs, hr, rfl⟩ | ⟨hused, rfl⟩
    · exact ⟨name, hn, by rw [if_pos ⟨hnlu, not_or.mpr ⟨hs, hr⟩⟩]⟩
    · refine ⟨name, hn, ?_⟩
      rw [if_neg (fun hh => hh.2 hused), if_pos hnlu]

theorem mem_checkUnusedResponses {data : ProjectData} {i : CrossFileIssue} :
    i ∈ checkUnusedResponses data ↔
      ∃ r, r ∈ data.responses ∧ r ∉ data.storyActions ∧ r ∉ data.ruleActions ∧
        i = { type := .unusedResponse
              message := "Response \x27" ++ r ++
                "\x27 is defined in domain but never used in stories/rules"
              severity := .information
              itemName := r
              definedIn := some (lookupMap data.responseFiles r) } := by
  unfold checkUnusedResponses
  rw [List.mem_filterMap]
  constructor
  · rintro ⟨a, ha, hfa⟩
    by_cases h : a ∈ jsSetOf (data.storyActions ++ data.ruleActions)
    · rw [if_pos h] at hfa
      simp at hfa
    · rw [if_neg h] at hfa
      rw [mem_jsSetOf, List.mem_append, not_or] at h
      exact ⟨a, ha, h.1, h.2, (Option.some.inj hfa).symm⟩
  · rintro ⟨r, hr, hs, hru, rfl⟩
    refine ⟨r, hr, ?_⟩
    rw [if_neg (by rw [mem_jsSetOf, List.mem_append]; exact not_or.mpr ⟨hs, hru⟩)]

theorem mem_checkUnusedEntities {data : ProjectData} {i : CrossFileIssue} :
    i ∈ checkUnusedEntities data ↔ False := by
  simp [checkUnusedEntities]

theorem mem_checkUnusedSlots {data : ProjectData} {i : CrossFileIssue} :
    i ∈ checkUnusedSlots data ↔
      ∃ s, s ∈ data.slots ∧ s ∉ data.storySlots ∧ s ∉ data.ruleSlots ∧
        i = { type := .unusedSlot
              message := "Slot \x27" ++ s ++
                "\x27 is defined in domain but never referenced in stories/rules or forms"
              severity := .information
              itemName := s
              definedIn := some (lookupMap data.slotFiles s) } := by
  unfold checkUnusedSlots
  rw [List.mem_filterMap]
  constructor
  · rintro ⟨a, ha, hfa⟩
    by_cases h : a ∉ jsSetOf (data.storySlots ++ data.ruleSlots) ∧
        isSlotUsedInForms a data = false
    · rw [if_pos h] at hfa
      have hmem := h.1
      rw [mem_jsSetOf, List.mem_append, not_or] at hmem
      exact ⟨a, ha, hmem.1, hmem.2, (Option.some.inj hfa).symm⟩
    · rw [if_neg h] at hfa
      simp at hfa
  · rintro ⟨s, hs, hss, hrs, rfl⟩
    refine ⟨s, hs, ?_⟩
    rw [if_pos ⟨by rw [mem_jsSetOf, List.mem_append]; exact not_or.mpr ⟨hss, hrs⟩, rfl⟩]

theorem mem_detectIssues {data : ProjectData} {i : CrossFileIssue} :
    i ∈ detectIssues data ↔
      i ∈ checkUndefinedIntents data ∨ i ∈ checkUndefinedActions data ∨
      i ∈ checkUndefinedSlots data ∨ i ∈ checkUndefinedForms data ∨
      i ∈ checkUnusedIntents data ∨ i ∈ checkUnusedResponses data ∨
      i ∈ checkUnusedEntities data ∨ i ∈ checkUnusedSlots data := by
  unfold detectIssues
  simp [List.mem_append, or_assoc]

/-- Every issue produced by `detectIssues` has a type that the router handles
(in particular, the `undefined-entity` type is never produced). -/
theorem detectIssues_routed {data : ProjectData} {i : CrossFileIssue}
    (h : i ∈ detectIssues data) :
    isRoutedUndefinedType i.type = true ∨ isRoutedUnusedType i.type = true := by
  rcases mem_detectIssues.mp h with h' | h' | h' | h' | h' | h' | h' | h'
  · obtain ⟨n, -, -, rfl⟩ := mem_checkUndefinedIntents.mp h'
    exact Or.inl rfl
  · obtain ⟨a, -, -, hc⟩ := mem_checkUndefinedActions.mp h'
    rcases hc with ⟨-, -, rfl⟩ | ⟨-, -, -, rfl⟩ <;> exact Or.inl rfl
  · obtain ⟨n, -, -, rfl⟩ := mem_checkUndefinedSlots.mp h'
    exact Or.inl rfl
  · obtain ⟨n, -, -, rfl⟩ := mem_checkUndefinedForms.mp h'
    exact Or.inl rfl
  · obtain ⟨n, -, -, hc⟩ := mem_checkUnusedIntents.mp h'
    rcases hc with ⟨-, -, rfl⟩ | ⟨-, rfl⟩ <;> exact Or.inr rfl
  · obtain ⟨r, -, -, -, rfl⟩ := mem_checkUnusedResponses.mp h'
    exact Or.inr rfl
  · exact absurd h' (by simp [checkUnusedEntities])
  · obtain ⟨s, -, -, -, rfl⟩ := mem_checkUnusedSlots.mp h'
    exact Or.inr rfl

/-- An issue of `detectIssues` whose type is `undefined-intent` can only come
from `checkUndefinedIntents`. -/
theorem detectIssues_undefinedIntent {data : ProjectData} {i : CrossFileIssue}
    (h : i ∈ detectIssues data) (ht : i.type = .undefinedIntent) :
    i ∈ checkUndefinedIntents data := by
  rcases mem_detectIssues.mp h with h' | h' | h' | h' | h' | h' | h' | h'
  · exact h'
  · obtain ⟨a, -, -, hc⟩ := mem_checkUndefinedActions.mp h'
    rcases hc with ⟨-, -, rfl⟩ | ⟨-, -, -, rfl⟩ <;> simp at ht
  · obtain ⟨n, -, -, rfl⟩ := mem_checkUndefinedSlots.mp h'
    simp at ht
  · obtain ⟨n, -, -, rfl⟩ := mem_checkUndefinedForms.mp h'
    simp at ht
  · obtain ⟨n, -, -, hc⟩ := mem_checkUnusedIntents.mp h'
    rcases hc with ⟨-, -, rfl⟩ | ⟨-, rfl⟩ <;> simp at ht
  · obtain ⟨r, -, -, -, rfl⟩ := mem_checkUnusedResponses.mp h'
    simp at ht
  · exact absurd h' (by simp [checkUnusedEntities])
  · obtain ⟨s, -, -, -, rfl⟩ := mem_checkUnusedSlots.mp h'
    simp at ht

/-- The two routed type families are mutually exclusive. -/
theorem routedType_not_both {t : IssueType} (h : isRoutedUnusedType t = true) :
    isRoutedUndefinedType t = false := by
  cases t <;> revert h <;> decide

/-- Membership in the issue map after routing one issue. -/
theorem mem_lookupMap_groupStep (sf rf : List String)
    (m : List (String × List CrossFileIssue)) (issue x : CrossFileIssue) (f : String) :
    x ∈ lookupMap (groupStep sf rf m issue) f ↔
      x ∈ lookupMap m f ∨ (x = issue ∧
        ((isRoutedUndefinedType issue.type = true ∧ f ∈ sf ++ rf) ∨
         (isRoutedUndefinedType issue.type = false ∧ isRoutedUnusedType issue.type = true ∧
          f ∈ issue.definedIn.getD []))) := by
  unfold groupStep
  by_cases h1 : isRoutedUndefinedType issue.type = true
  · rw [if_pos h1, mem_lookupMap_foldl_addToMap]
    simp [h1]
  · rw [if_neg h1]
    have h1f : isRoutedUndefinedType issue.type = false := by simpa using h1
    by_cases h2 : isRoutedUnusedType issue.type = true
    · rw [if_pos h2]
      split
      · rename_i files hdef
        rw [hdef]
        by_cases hne : files ≠ []
        · rw [if_pos hne, mem_lookupMap_foldl_addToMap]
          simp [h1f, h2]
        · rw [if_neg hne]
          rw [not_not] at hne
          simp [h1f, h2, hne]
      · rename_i hdef
        rw [hdef]
        simp [h1f, h2]
    · rw [if_neg h2]
      simp [h1f, h2]

/-- Membership in the final issue map of `groupIssuesByFile`. -/
theorem mem_lookupMap_groupIssuesByFile (issues : List CrossFileIssue)
    (sf rf : List String) (x : CrossFileIssue) (f : String) :
    x ∈ lookupMap (groupIssuesByFile issues sf rf) f ↔
      ∃ i ∈ issues, x = i ∧
        ((isRoutedUndefinedType i.type = true ∧ f ∈ sf ++ rf) ∨
         (isRoutedUndefinedType i.type = false ∧ isRoutedUnusedType i.type = true ∧
          f ∈ i.definedIn.getD [])) := by
  suffices h : ∀ m, x ∈ lookupMap (issues.foldl (groupStep sf rf) m) f ↔
      x ∈ lookupMap m f ∨ ∃ i ∈ issues, x = i ∧
        ((isRoutedUndefinedType i.type = true ∧ f ∈ sf ++ rf) ∨
         (isRoutedUndefinedType i.type = false ∧ isRoutedUnusedType i.type = true ∧
          f ∈ i.definedIn.getD [])) by
    have h0 := h []
    simpa [groupIssuesByFile, lookupMap] using h0
  intro m
  induction issues generalizing m with
  | nil => simp
  | cons i is ih =>
    rw [List.foldl_cons, ih (groupStep sf rf m i), mem_lookupMap_groupStep]
    constructor
    · rintro ((hm | hi) | ⟨j, hj, hx⟩)
      · exact Or.inl hm
      · exact Or.inr ⟨i, by simp, hi⟩
      · exact Or.inr ⟨j, by simp [hj], hx⟩
    · rintro (hm | ⟨j, hj, hx⟩)
      · exact Or.inl (Or.inl hm)
      · rcases List.mem_cons.mp hj with rfl | hj'
        · exact Or.inl (Or.inr hx)
        · exact Or.inr ⟨j, hj', hx⟩

/-! ### Lemmas about aggregation -/

theorem addDefs_eq (ns : List String) (path : String) (s : List String)
    (m : List (String × List String)) :
    addDefs ns path (s, m) =
      (ns.foldl setAdd s, ns.foldl (fun m n => addToMap m n path) m) := by
  induction ns generalizing s m with
  | nil => rfl
  | cons n ns ih =>
    rw [List.foldl_cons, List.foldl_cons]
    exact ih (setAdd s n) (addToMap m n path)

theorem foldl_setAdd_idem (l : List String) (s : List String) :
    l.foldl setAdd (l.foldl setAdd s) = l.foldl setAdd s :=
  foldl_setAdd_of_subset (fun x hx => (foldl_setAdd_mem l s x).mpr (Or.inr hx))

theorem mem_lookup_foldl_addToMap_twice (ns : List String) (p : String)
    (m : List (String × List String)) (k : String) (x : String) :
    x ∈ lookupMap (ns.foldl (fun m n => addToMap m n p)
        (ns.foldl (fun m n => addToMap m n p) m)) k ↔
      x ∈ lookupMap (ns.foldl (fun m n => addToMap m n p) m) k := by
  rw [mem_lookupMap_foldl_addToMap, mem_lookupMap_foldl_addToMap]
  tauto

theorem processDomainFile_none {data : ProjectData} {f : DomainFile}
    (h : f.parse = none) : processDomainFile data f = data := by
  unfold processDomainFile
  rw [h]

theorem processDomainFile_some {data : ProjectData} {f : DomainFile}
    {dom : RasaDomain} (h : f.parse = some dom) :
    processDomainFile data f =
      { data with
        intents := (extractIntents dom).foldl setAdd data.intents
        intentFiles := (extractIntents dom).foldl
          (fun m n => addToMap m n f.path) data.intentFiles
        entities := (extractEntities dom).foldl setAdd data.entities
        entityFiles := (extractEntities dom).foldl
          (fun m n => addToMap m n f.path) data.entityFiles
        slots := (extractSlots dom).foldl setAdd data.slots
        slotFiles := (extractSlots dom).foldl
          (fun m n => addToMap m n f.path) data.slotFiles
        responses := (extractResponses dom).foldl setAdd data.responses
        responseFiles := (extractResponses dom).foldl
          (fun m n => addToMap m n f.path) data.responseFiles
        actions := (extractActions dom).foldl setAdd data.actions
        actionFiles := (extractActions dom).foldl
          (fun m n => addToMap m n f.path) data.actionFiles
        forms := (extractForms dom).foldl setAdd data.forms } := by
  unfold processDomainFile
  rw [h]
  simp only [addDefs_eq]

theorem processNLUFile_none {data : ProjectData} {f : NLUFile}
    (h : f.parse = none) : processNLUFile data f = data := by
  unfold processNLUFile
  rw [h]

theorem processStoriesFile_none {data : ProjectData} {f : StoriesFile}
    (h : f.parse = none) : processStoriesFile data f = data := by
  unfold processStoriesFile
  rw [h]

theorem processRulesFile_none {data : ProjectData} {f : RulesFile}
    (h : f.parse = none) : processRulesFile data f = data := by
  unfold processRulesFile
  rw [h]

theorem foldl_filter_isSome {β γ : Type} (process : ProjectData → β → ProjectData)
    (parse : β → Option γ) (hnone : ∀ d f, parse f = none → process d f = d)
    (data : ProjectData) (l : List β) :
    l.foldl process data = (l.filter (fun f => (parse f).isSome)).foldl process data := by
  induction l generalizing data with
  | nil => rfl
  | cons f fs ih =>
    cases hf : parse f with
    | none =>
      rw [List.foldl_cons, hnone data f hf,
        List.filter_cons_of_neg (by simp [hf])]
      exact ih data
    | some doc =>
      rw [List.foldl_cons, List.filter_cons_of_pos (by simp [hf]), List.foldl_cons]
      exact ih (process data f)

/-! ### Lemmas about step extraction -/

theorem stepRefIntent_storyForms (b : Bool) (d : ProjectData) (s : Step) :
    (stepRefIntent b d s).storyForms = d.storyForms := by
  unfold stepRefIntent
  split <;> first | rfl | (split_ifs <;> rfl)

theorem stepRefIntent_ruleForms (b : Bool) (d : ProjectData) (s : Step) :
    (stepRefIntent b d s).ruleForms = d.ruleForms := by
  unfold stepRefIntent
  split <;> first | rfl | (split_ifs <;> rfl)

theorem stepRefAction_storyForms (b : Bool) (d : ProjectData) (s : Step) :
    (stepRefAction b d s).storyForms = d.storyForms := by
  unfold stepRefAction
  split <;> first | rfl | (split_ifs <;> rfl)

theorem stepRefAction_ruleForms (b : Bool) (d : ProjectData) (s : Step) :
    (stepRefAction b d s).ruleForms = d.ruleForms := by
  unfold stepRefAction
  split <;> first | rfl | (split_ifs <;> rfl)

theorem stepRefSlots_storyForms (b : Bool) (d : ProjectData) (s : Step) :
    (stepRefSlots b d s).storyForms = d.storyForms := by
  unfold stepRefSlots
  split <;> first | rfl | (split_ifs <;> rfl)

theorem stepRefSlots_ruleForms (b : Bool) (d : ProjectData) (s : Step) :
    (stepRefSlots b d s).ruleForms = d.ruleForms := by
  unfold stepRefSlots
  split <;> first | rfl | (split_ifs <;> rfl)

theorem stepRefLoop_null {b : Bool} {d : ProjectData} {step : Step}
    (h : step.active_loop = some .null) : stepRefLoop b d step = d := by
  unfold stepRefLoop
  rw [h]

theorem stepRefLoop_name {b : Bool} {d : ProjectData} {step : Step} {s : String}
    (h : step.active_loop = some (.name s)) (hs : s ≠ "") :
    stepRefLoop b d step =
      if b then { d with storyForms := setAdd d.storyForms s }
      else { d with ruleForms := setAdd d.ruleForms s } := by
  unfold stepRefLoop
  rw [h]
  simp [hs]

/-! ### Claim theorems -/

/-- C1 (counterexample): the claim says a name used only in NLU training data
and absent from the catalog still yields an undefined-intent Error.  In
`exNLUOnly` the intent `greet_nlu` occurs only in NLU usage and is absent
from the catalog, yet evaluation produces no undefined-intent issue (indeed
no issue at all): `checkUndefinedIntents` iterates only story and rule intent
references. -/
theorem nlu_only_intent_yields_no_error :
    "greet_nlu" ∈ (aggregateProjectData exNLUOnly).nluIntents ∧
    "greet_nlu" ∉ (aggregateProjectData exNLUOnly).intents ∧
    (detectIssues (aggregateProjectData exNLUOnly)).filter
      (fun i => i.type == IssueType.undefinedIntent) = [] ∧
    detectIssues (aggregateProjectData exNLUOnly) = [] := by decide

/-- C1 (amended): every intent name in flow-intent usage (story or rule
steps) absent from the catalog yields an undefined-intent Error; a name
outside flow usage (in particular one used only in NLU data) never yields an
undefined-intent issue. -/
theorem undefined_intent_requires_flow_usage (data : ProjectData) (name : String) :
    (name ∈ data.storyIntents ∨ name ∈ data.ruleIntents → name ∉ data.intents →
      ∃ i ∈ detectIssues data,
        i.type = .undefinedIntent ∧ i.severity = .error ∧ i.itemName = name) ∧
    (name ∉ data.storyIntents → name ∉ data.ruleIntents →
      ∀ i ∈ detectIssues data, i.type = .undefinedIntent → i.itemName ≠ name) := by
  constructor
  · intro hflow hcat
    exact ⟨_, mem_detectIssues.mpr (Or.inl
      (mem_checkUndefinedIntents.mpr ⟨name, hflow, hcat, rfl⟩)), rfl, rfl, rfl⟩
  · intro hs hr i hi ht heq
    obtain ⟨n, hn, -, rfl⟩ :=
      mem_checkUndefinedIntents.mp (detectIssues_undefinedIntent hi ht)
    have hx : n = name := heq
    subst hx
    rcases hn with hn | hn
    · exact hs hn
    · exact hr hn

/-- C1 (witness): the flow-used, undeclared intent `book_flight` yields the
Error. -/
theorem undefined_intent_requires_flow_usage_witness :
    ∃ i ∈ detectIssues exFlowData,
      i.type = .undefinedIntent ∧ i.severity = .error ∧ i.itemName = "book_flight" :=
  (undefined_intent_requires_flow_usage exFlowData "book_flight").1
    (Or.inl (by decide)) (by decide)

/-- C2 (counterexample): the claim says the two unused-intent warnings
co-exist for a name absent from both NLU and flow usage.  For `greet` in
`exUnusedData` the evaluator emits exactly one unused-intent warning (the
dead-definition one), because `checkUnusedIntents` is an if/else-if chain. -/
theorem unused_intent_warnings_do_not_coexist :
    "greet" ∈ exUnusedData.intents ∧
    "greet" ∉ exUnusedData.nluIntents ∧
    "greet" ∉ exUnusedData.storyIntents ∧
    "greet" ∉ exUnusedData.ruleIntents ∧
    (checkUnusedIntents exUnusedData).length = 1 ∧
    checkUnusedIntents exUnusedData =
      [{ type := .unusedIntent
         message := "Intent \x27greet\x27 is defined in domain but not used in NLU data or stories/rules"
         severity := .warning
         itemName := "greet"
         definedIn := some ["domain.yml"] }] := by decide

/-- C2 (amended): for a catalog intent absent from both NLU and flow usage,
exactly one unused-intent warning is produced: the dead-definition warning;
the no-training-data warning of rule 5 does not fire for that name, so the
two warnings never co-exist. -/
theorem unused_intent_exactly_one_warning (data : ProjectData) (name : String)
    (h1 : name ∈ data.intents) (h2 : name ∉ data.nluIntents)
    (h3 : name ∉ data.storyIntents) (h4 : name ∉ data.ruleIntents) :
    ({ type := .unusedIntent
       message := "Intent \x27" ++ name ++
         "\x27 is defined in domain but not used in NLU data or stories/rules"
       severity := .warning
       itemName := name
       definedIn := some (lookupMap data.intentFiles name) } : CrossFileIssue) ∈
      checkUnusedIntents data ∧
    ∀ i ∈ checkUnusedIntents data, i.itemName = name →
      i = { type := .unusedIntent
            message := "Intent \x27" ++ name ++
              "\x27 is defined in domain but not used in NLU data or stories/rules"
            severity := .warning
            itemName := name
            definedIn := some (lookupMap data.intentFiles name) } := by
  constructor
  · exact mem_checkUnusedIntents.mpr ⟨name, h1, h2, Or.inl ⟨h3, h4, rfl⟩⟩
  · intro i hi heq
    obtain ⟨n, hn, hnlu, hcase⟩ := mem_checkUnusedIntents.mp hi
    rcases hcase with ⟨hsn, hrn, rfl⟩ | ⟨hused, rfl⟩
    · have hx : n = name := heq
      subst hx
      rfl
    · have hx : n = name := heq
      subst hx
      rcases hused with hu | hu
      · exact absurd hu h3
      · exact absurd hu h4

/-- C2 (witness): instantiated at `exUnusedData` and `greet`. -/
theorem unused_intent_exactly_one_warning_witness :
    ({ type := .unusedIntent
       message := "Intent \x27" ++ "greet" ++
         "\x27 is defined in domain but not used in NLU data or stories/rules"
       severity := .warning
       itemName := "greet"
       definedIn := some (lookupMap exUnusedData.intentFiles "greet") } : CrossFileIssue) ∈
      checkUnusedIntents exUnusedData :=
  (unused_intent_exactly_one_warning exUnusedData "greet"
    (by decide) (by decide) (by decide) (by decide)).1

/-- C3 (counterexample): aggregating the same definition file twice does not
yield the same catalog as aggregating it once: the declaring-file list of
`greet` records the path twice and is not deduplicated. -/
theorem duplicate_file_duplicates_declaring_files :
    lookupMap (parseDomainFiles ProjectData.empty [exDupFile, exDupFile]).intentFiles
      "greet" = ["domain.yml", "domain.yml"] ∧
    lookupMap (parseDomainFiles ProjectData.empty [exDupFile]).intentFiles
      "greet" = ["domain.yml"] ∧
    (parseDomainFiles ProjectData.empty [exDupFile, exDupFile]).intentFiles ≠
      (parseDomainFiles ProjectData.empty [exDupFile]).intentFiles := by decide

/-- C3 (amended): aggregating the same definition file twice yields identical
name sets for all six kinds, and for every name the same set of declaring
files; the declaring-file lists themselves however accumulate one entry per
occurrence instead of being deduplicated. -/
theorem duplicate_file_same_names_same_file_sets (init : ProjectData) (f : DomainFile) :
    ((parseDomainFiles init [f, f]).intents = (parseDomainFiles init [f]).intents ∧
     (parseDomainFiles init [f, f]).entities = (parseDomainFiles init [f]).entities ∧
     (parseDomainFiles init [f, f]).slots = (parseDomainFiles init [f]).slots ∧
     (parseDomainFiles init [f, f]).responses = (parseDomainFiles init [f]).responses ∧
     (parseDomainFiles init [f, f]).actions = (parseDomainFiles init [f]).actions ∧
     (parseDomainFiles init [f, f]).forms = (parseDomainFiles init [f]).forms) ∧
    ∀ k x,
      (x ∈ lookupMap (parseDomainFiles init [f, f]).intentFiles k ↔
        x ∈ lookupMap (parseDomainFiles init [f]).intentFiles k) ∧
      (x ∈ lookupMap (parseDomainFiles init [f, f]).entityFiles k ↔
        x ∈ lookupMap (parseDomainFiles init [f]).entityFiles k) ∧
      (x ∈ lookupMap (parseDomainFiles init [f, f]).slotFiles k ↔
        x ∈ lookupMap (parseDomainFiles init [f]).slotFiles k) ∧
      (x ∈ lookupMap (parseDomainFiles init [f, f]).responseFiles k ↔
        x ∈ lookupMap (parseDomainFiles init [f]).responseFiles k) ∧
      (x ∈ lookupMap (parseDomainFiles init [f, f]).actionFiles k ↔
        x ∈ lookupMap (parseDomainFiles init [f]).actionFiles k) := by
  have h2 : parseDomainFiles init [f, f] =
      processDomainFile (processDomainFile init f) f := rfl
  have h1 : parseDomainFiles init [f] = processDomainFile init f := rfl
  rw [h1, h2]
  cases hf : f.parse with
  | none => simp [processDomainFile_none hf]
  | some dom =>
    refine ⟨⟨?_, ?_, ?_, ?_, ?_, ?_⟩, fun k x => ⟨?_, ?_, ?_, ?_, ?_⟩⟩ <;>
      simp only [processDomainFile_some hf] <;>
      first
        | exact foldl_setAdd_idem _ _
        | exact mem_lookup_foldl_addToMap_twice _ _ _ _ _

/-- C4 (counterexample): the claim says an intent/entity object entry with
two or more keys is skipped with no name extracted; in fact the first key is
extracted and contributes to the catalog. -/
theorem multi_key_object_extracts_first_key :
    extractIntents { intents := some [.obj ["a", "b"]] } = ["a"] ∧
    extractEntities { entities := some [.obj ["x", "y"]] } = ["x"] ∧
    (parseDomainFiles ProjectData.empty
      [⟨"domain.yml", some { intents := some [.obj ["a", "b"]] }⟩]).intents = ["a"] := by
  decide

/-- C4 (amended): an object entry with zero keys (or an empty first key) is
skipped silently with no name and no error; an object entry with one or more
keys contributes exactly its first key. -/
theorem object_entry_extraction (keys : List String) :
    extractIntents { intents := some [.obj keys] } =
      (if keys.headD "" = "" then [] else [keys.headD ""]) ∧
    extractEntities { entities := some [.obj keys] } =
      (if keys.headD "" = "" then [] else [keys.headD ""]) := by
  cases keys with
  | nil => constructor <;> simp [extractIntents, extractEntities]
  | cons k ks =>
    by_cases h : k = ""
    · subst h
      constructor <;> simp [extractIntents, extractEntities]
    · constructor <;> simp [extractIntents, extractEntities, h]

/-- C5 (confirmed): a built-in action name never receives an undefined-action
or undefined-response issue from `checkUndefinedActions`, regardless of what
the catalog declares. -/
theorem builtin_actions_never_flagged (data : ProjectData) (name : String)
    (h : isBuiltInAction name = true) :
    ∀ i ∈ checkUndefinedActions data, i.itemName ≠ name := by
  intro i hi heq
  obtain ⟨a, -, hb, hcase⟩ := mem_checkUndefinedActions.mp hi
  rcases hcase with ⟨-, -, rfl⟩ | ⟨-, -, -, rfl⟩ <;>
    (have hx : a = name := heq; subst hx; simp [hb] at h)

/-- C5 (witness): `action_listen` used in a story with an empty catalog. -/
theorem builtin_actions_never_flagged_witness :
    isBuiltInAction "action_listen" = true ∧
    ∀ i ∈ checkUndefinedActions exBuiltinData, i.itemName ≠ "action_listen" :=
  ⟨by decide, builtin_actions_never_flagged exBuiltinData "action_listen" (by decide)⟩

/-- C6 (counterexample): the claim says a step whose `active_loop` is a
non-null string always records a form usage; the empty string is a non-null
string value, yet the extractor (a JS truthiness check) records nothing. -/
theorem empty_string_active_loop_no_usage :
    (extractStepReferences [{ active_loop := some (.name "") }]
      ProjectData.empty true).storyForms = [] ∧
    (extractStepReferences [{ active_loop := some (.name "") }]
      ProjectData.empty false).ruleForms = [] := by decide

/-- C6 (amended): a step with `active_loop: null` records no form usage (the
form sets of both document kinds are unchanged), and a step whose
`active_loop` is a non-null, non-empty string always records a form usage for
that name in the current document kind. -/
theorem active_loop_truthiness (isStory : Bool) (data : ProjectData) (step : Step) :
    (step.active_loop = some .null →
      (stepRef isStory data step).storyForms = data.storyForms ∧
      (stepRef isStory data step).ruleForms = data.ruleForms) ∧
    (∀ s, step.active_loop = some (.name s) → s ≠ "" →
      s ∈ (if isStory then (stepRef isStory data step).storyForms
           else (stepRef isStory data step).ruleForms)) := by
  constructor
  · intro h
    constructor
    · rw [stepRef, stepRefSlots_storyForms, stepRefLoop_null h,
        stepRefAction_storyForms, stepRefIntent_storyForms]
    · rw [stepRef, stepRefSlots_ruleForms, stepRefLoop_null h,
        stepRefAction_ruleForms, stepRefIntent_ruleForms]
  · intro s h hs
    cases isStory with
    | true =>
      rw [if_pos rfl, stepRef, stepRefSlots_storyForms, stepRefLoop_name h hs,
        if_pos rfl]
      exact mem_setAdd.mpr (Or.inr rfl)
    | false =>
      rw [if_neg (by simp), stepRef, stepRefSlots_ruleForms, stepRefLoop_name h hs,
        if_neg (by simp)]
      exact mem_setAdd.mpr (Or.inr rfl)

/-- C6 (witness): `active_loop: null` records nothing; `active_loop: "x"`
records `x`. -/
theorem active_loop_truthiness_witness :
    (stepRef true ProjectData.empty { active_loop := some .null }).storyForms =
      ProjectData.empty.storyForms ∧
    "x" ∈ (if true then (stepRef true ProjectData.empty
        { active_loop := some (.name "x") }).storyForms
      else (stepRef true ProjectData.empty
        { active_loop := some (.name "x") }).ruleForms) :=
  ⟨((active_loop_truthiness true ProjectData.empty
      { active_loop := some .null }).1 rfl).1,
   (active_loop_truthiness true ProjectData.empty
      { active_loop := some (.name "x") }).2 "x" rfl (by decide)⟩

/-- C7 (confirmed): a non-built-in flow action starting with `utter_` is
checked only against the catalog's responses: it yields an undefined-response
Error exactly when absent from the responses, independently of the catalog's
actions, and every issue it can receive has the undefined-response type. -/
theorem utter_action_checked_against_responses_only (data : ProjectData)
    (name : String) (h1 : utterPrefixed name = true)
    (h2 : isBuiltInAction name = false)
    (h3 : name ∈ data.storyActions ∨ name ∈ data.ruleActions) :
    ((∃ i ∈ checkUndefinedActions data,
        i.itemName = name ∧ i.type = .undefinedResponse ∧ i.severity = .error) ↔
      name ∉ data.responses) ∧
    ∀ i ∈ checkUndefinedActions data, i.itemName = name →
      i.type = .undefinedResponse := by
  constructor
  · constructor
    · rintro ⟨i, hi, hname, htype, -⟩
      obtain ⟨a, -, -, hcase⟩ := mem_checkUndefinedActions.mp hi
      rcases hcase with ⟨-, hr, rfl⟩ | ⟨hu, -, -, rfl⟩
      · have hx : a = name := hname
        subst hx
        exact hr
      · have hx : a = name := hname
        subst hx
        simp [h1] at hu
    · intro hr
      exact ⟨_, mem_checkUndefinedActions.mpr
        ⟨name, h3, h2, Or.inl ⟨h1, hr, rfl⟩⟩, rfl, rfl, rfl⟩
  · intro i hi hname
    obtain ⟨a, -, -, hcase⟩ := mem_checkUndefinedActions.mp hi
    rcases hcase with ⟨-, -, rfl⟩ | ⟨hu, -, -, rfl⟩
    · rfl
    · have hx : a = name := hname
      subst hx
      simp [h1] at hu

/-- C7 (witness): `utter_hi`, declared only under `actions:`, still yields
the undefined-response Error. -/
theorem utter_action_checked_against_responses_only_witness :
    ∃ i ∈ checkUndefinedActions exUtterData,
      i.itemName = "utter_hi" ∧ i.type = .undefinedResponse ∧ i.severity = .error :=
  ((utter_action_checked_against_responses_only exUtterData "utter_hi"
    (by decide) (by decide) (Or.inl (by decide))).1).mpr (by decide)

/-- C8 (confirmed): for every issue of a validation pass, the router
attributes an undefined-type issue to exactly the known story and rule flow
files, an unused-type issue to exactly its recorded declaring files, and
every produced issue belongs to one of the two routed families. -/
theorem issue_routing (data : ProjectData) (sf rf : List String)
    (i : CrossFileIssue) (f : String) (h : i ∈ detectIssues data) :
    (isRoutedUndefinedType i.type = true →
      (i ∈ lookupMap (groupIssuesByFile (detectIssues data) sf rf) f ↔
        f ∈ sf ++ rf)) ∧
    (isRoutedUnusedType i.type = true →
      (i ∈ lookupMap (groupIssuesByFile (detectIssues data) sf rf) f ↔
        f ∈ i.definedIn.getD [])) ∧
    (isRoutedUndefinedType i.type = true ∨ isRoutedUnusedType i.type = true) := by
  refine ⟨?_, ?_, detectIssues_routed h⟩
  · intro ht
    rw [mem_lookupMap_groupIssuesByFile]
    constructor
    · rintro ⟨j, -, rfl, hcase⟩
      rcases hcase with ⟨-, hf⟩ | ⟨hfF, -, -⟩
      · exact hf
      · rw [ht] at hfF
        exact Bool.noConfusion hfF
    · intro hf
      exact ⟨i, h, rfl, Or.inl ⟨ht, hf⟩⟩
  · intro ht
    have htF := routedType_not_both ht
    rw [mem_lookupMap_groupIssuesByFile]
    constructor
    · rintro ⟨j, -, rfl, hcase⟩
      rcases hcase with ⟨hT, -⟩ | ⟨-, -, hf⟩
      · rw [htF] at hT
        exact Bool.noConfusion hT
      · exact hf
    · intro hf
      exact ⟨i, h, rfl, Or.inr ⟨htF, ht, hf⟩⟩

/-- C8 (witness): the undefined-intent issue for `x` is routed to a stories
file. -/
theorem issue_routing_witness :
    exIssueX ∈ lookupMap (groupIssuesByFile (detectIssues exRouteData)
      ["stories.yml"] ["rules.yml"]) "stories.yml" :=
  ((issue_routing exRouteData ["stories.yml"] ["rules.yml"] exIssueX "stories.yml"
    (by decide)).1 (by decide)).mpr (by decide)

/-- C9 (confirmed): files whose parse failed contribute nothing and do not
abort the pass: aggregation over all files equals aggregation over just the
successfully parsed files, and so does the resulting issue list. -/
theorem parse_failures_are_skipped (pf : ProjectFiles) :
    aggregateProjectData pf = aggregateProjectData
      { domainFiles := pf.domainFiles.filter (fun f => f.parse.isSome)
        nluFiles := pf.nluFiles.filter (fun f => f.parse.isSome)
        storiesFiles := pf.storiesFiles.filter (fun f => f.parse.isSome)
        rulesFiles := pf.rulesFiles.filter (fun f => f.parse.isSome) } ∧
    detectIssues (aggregateProjectData pf) = detectIssues (aggregateProjectData
      { domainFiles := pf.domainFiles.filter (fun f => f.parse.isSome)
        nluFiles := pf.nluFiles.filter (fun f => f.parse.isSome)
        storiesFiles := pf.storiesFiles.filter (fun f => f.parse.isSome)
        rulesFiles := pf.rulesFiles.filter (fun f => f.parse.isSome) }) := by
  have h1 : ∀ (data : ProjectData) (l : List DomainFile),
      parseDomainFiles data l = parseDomainFiles data (l.filter fun f => f.parse.isSome) :=
    fun data l => foldl_filter_isSome processDomainFile DomainFile.parse
      (fun _ _ hf => processDomainFile_none hf) data l
  have h2 : ∀ (data : ProjectData) (l : List NLUFile),
      parseNLUFiles data l = parseNLUFiles data (l.filter fun f => f.parse.isSome) :=
    fun data l => foldl_filter_isSome processNLUFile NLUFile.parse
      (fun _ _ hf => processNLUFile_none hf) data l
  have h3 : ∀ (data : ProjectData) (l : List StoriesFile),
      parseStoriesFiles data l = parseStoriesFiles data (l.filter fun f => f.parse.isSome) :=
    fun data l => foldl_filter_isSome processStoriesFile StoriesFile.parse
      (fun _ _ hf => processStoriesFile_none hf) data l
  have h4 : ∀ (data : ProjectData) (l : List RulesFile),
      parseRulesFiles data l = parseRulesFiles data (l.filter fun f => f.parse.isSome) :=
    fun data l => foldl_filter_isSome processRulesFile RulesFile.parse
      (fun _ _ hf => processRulesFile_none hf) data l
  have hagg : aggregateProjectData pf = aggregateProjectData
      { domainFiles := pf.domainFiles.filter (fun f => f.parse.isSome)
        nluFiles := pf.nluFiles.filter (fun f => f.parse.isSome)
        storiesFiles := pf.storiesFiles.filter (fun f => f.parse.isSome)
        rulesFiles := pf.rulesFiles.filter (fun f => f.parse.isSome) } := by
    unfold aggregateProjectData
    rw [h1 ProjectData.empty pf.domainFiles]
    rw [h2 _ pf.nluFiles]
    rw [h3 _ pf.storiesFiles]
    rw [h4 _ pf.rulesFiles]
  exact ⟨hagg, congrArg detectIssues hagg⟩

/-- C10 (confirmed): when the workspace is not a Rasa project,
`validateProject` returns the empty issue map, whatever the project files
are. -/
theorem not_rasa_project_returns_empty (pf : ProjectFiles) :
    validateProject false pf = [] := rfl

end RasaValidation
